import Mathlib

/-!
Verification of the evaluation engine of the `occurence` repository
(`minkowski/predictor.py`).

The development shallowly embeds the `Predictor` class and the library
routines it calls.  Numeric arrays (`numpy` float arrays) are modelled as
`List ℚ`; the only genuinely irrational quantity, `np.std` (a square root),
is modelled over `ℝ`.  The mutable object state of a `Predictor` is passed
explicitly: every method that mutates `self` returns the updated
`Predictor` value together with an `Option CVError` / `Except CVError`
describing the Python exception it raises, if any.

External collaborators are represented by their interfaces:
* the `Data` collaborator (`minkowski.Data`) is a structure of the four
  members the predictor reads;
* the sklearn classifier (`ClassifierMixin`) is a structure of `fit`,
  `predict_proba` and `predict` functions over an abstract parameter
  state `σ`, each allowed to fail;
* `sklearn.model_selection.TimeSeriesSplit`, `np.interp`, `np.trapz`,
  `np.mean`, `np.std`, `np.diff` and `sklearn.metrics.auc` are embedded
  concretely from their (documented, deterministic) semantics, because the
  claims quantify over their outputs;
* `sklearn.metrics.RocCurveDisplay.from_predictions` (the per-fold ROC
  curve construction) is kept abstract as a function parameter producing a
  `RocCurve`, since every claim about the aggregation quantifies over
  arbitrary per-fold curves.
-/

namespace Minkowski

/-- Python exceptions raised by the evaluation engine or its collaborators.
`invalidFoldCount` is the `ValueError` raised by `TimeSeriesSplit` for a bad
fold count, `unpackError` the `ValueError` raised by unpacking a tuple into
the wrong number of variables, `nonMonotonic` the `ValueError` raised by
`sklearn.metrics.auc` on a non-monotone x array, and the classifier errors
model whatever the classifier collaborator raises from `fit` /
`predict_proba` / `predict`. -/
inductive CVError where
  | invalidFoldCount
  | unpackError
  | classifierFitError
  | classifierPredictError
  | nonMonotonic
deriving DecidableEq

deriving instance DecidableEq for Except

/-- The `minkowski.Data` collaborator, reduced to the four members
`Predictor` reads: `get_training_covariates()`, `predictand`, the dtype
test `predictand.dtype == bool` (field `predictand_isBool`), and
`prepare_covariates`. -/
structure DataObj where
  get_training_covariates : List (List ℚ)
  predictand : List ℚ
  predictand_isBool : Bool
  prepare_covariates : List (List ℚ) → List (List ℚ)

/-- The sklearn classifier collaborator over parameter state `σ`.
`predict_proba` returns one `(class0, class1)` probability pair per row. -/
structure CovModel (σ : Type) where
  fit : σ → List (List ℚ) → List ℚ → Except CVError σ
  predict_proba : σ → List (List ℚ) → Except CVError (List (ℚ × ℚ))
  predict : σ → List (List ℚ) → Except CVError (List ℚ)

/-- The `Predictor` object state.  `cross_val_res` models the field
`self._cross_val_res`: `none` is Python `None`; when populated it holds the
stored tuple, modelled as the list of the tuple's components (each
component being a per-fold list of arrays), so that tuple unpacking with
the wrong arity can be expressed.  `fit_count` is a ghost counter of how
many times the classifier's `fit` has been invoked. -/
structure Predictor (σ : Type) where
  data : DataObj
  cv_splits : ℕ
  cov_model : CovModel σ
  cov_state : σ
  X : List (List ℚ)
  y : List ℚ
  cross_val_res : Option (List (List (List ℚ)))
  is_binary : Bool
  fit_count : ℕ

/-- Numpy fancy indexing `X[idxs, :]` of a row list by an index array. -/
def selectRows (X : List (List ℚ)) (idxs : List ℕ) : List (List ℚ) :=
  idxs.map (fun i => X.getD i [])

/-- Numpy fancy indexing `y[idxs]` of a vector by an index array. -/
def selectIdx (y : List ℚ) (idxs : List ℕ) : List ℚ :=
  idxs.map (fun i => y.getD i 0)

/-- Python indexing `X[idxs]` where `idxs` is either `slice(None)`
(`none`, the default) or an index array (`some l`). -/
def sliceRows (X : List (List ℚ)) : Option (List ℕ) → List (List ℚ)
  | none => X
  | some l => selectRows X l

/-- Python indexing `y[idxs]` where `idxs` is either `slice(None)` or an
index array. -/
def sliceVec (y : List ℚ) : Option (List ℕ) → List ℚ
  | none => y
  | some l => selectIdx y l

/-- `Predictor.__init__`: snapshots `get_training_covariates()` into
`self._X`, `predictand` into `self._y`, the dtype test into
`self._is_binary`, sets the cache to `None`, and keeps references to the
data object and the classifier. -/
def mkPredictor (data : DataObj) (covariate_model : CovModel σ) (st : σ)
    (cv_splits : ℕ) : Predictor σ :=
  { data := data
    cv_splits := cv_splits
    cov_model := covariate_model
    cov_state := st
    X := data.get_training_covariates
    y := data.predictand
    cross_val_res := none
    is_binary := data.predictand_isBool
    fit_count := 0 }

/-- `Predictor.fit_covariate_model`: fits the classifier in place on all
rows (`train_idxs = None`) or on the rows at `train_idxs`.  The ghost
`fit_count` is incremented at every invocation of the classifier's
`fit`. -/
def fit_covariate_model (p : Predictor σ) (train_idxs : Option (List ℕ)) :
    Predictor σ × Option CVError :=
  match train_idxs with
  | none =>
      match p.cov_model.fit p.cov_state p.X p.y with
      | .ok st => ({ p with cov_state := st, fit_count := p.fit_count + 1 }, none)
      | .error e => ({ p with fit_count := p.fit_count + 1 }, some e)
  | some idxs =>
      match p.cov_model.fit p.cov_state (selectRows p.X idxs) (selectIdx p.y idxs) with
      | .ok st => ({ p with cov_state := st, fit_count := p.fit_count + 1 }, none)
      | .error e => ({ p with fit_count := p.fit_count + 1 }, some e)

/-- `Predictor.get_covariate_probability`: in classification mode
(`self._is_binary`) returns column 1 of `predict_proba` on the selected
rows, otherwise the raw `predict` values. -/
def get_covariate_probability (p : Predictor σ) (idxs : Option (List ℕ)) :
    Except CVError (List ℚ) :=
  if p.is_binary then
    (p.cov_model.predict_proba p.cov_state (sliceRows p.X idxs)).map
      (fun rows => rows.map Prod.snd)
  else
    p.cov_model.predict p.cov_state (sliceRows p.X idxs)

/-- `Predictor.predict_covariate_probability`: prepares covariates for the
new rows `df` through the live data object, then predicts as in
`get_covariate_probability`. -/
def predict_covariate_probability (p : Predictor σ) (df : List (List ℚ)) :
    Except CVError (List ℚ) :=
  if p.is_binary then
    (p.cov_model.predict_proba p.cov_state (p.data.prepare_covariates df)).map
      (fun rows => rows.map Prod.snd)
  else
    p.cov_model.predict p.cov_state (p.data.prepare_covariates df)

/-- `Predictor.get_residuals`: elementwise difference between the
predicted probabilities and `y[idxs]`. -/
def get_residuals (p : Predictor σ) (idxs : Option (List ℕ)) :
    Except CVError (List ℚ) :=
  (get_covariate_probability p idxs).map
    (fun pr => List.zipWith (fun a b => a - b) pr (sliceVec p.y idxs))

/-- `sklearn.model_selection.TimeSeriesSplit(n_splits).split(X)`:
construction raises `ValueError` for `n_splits <= 1`; `split` raises
`ValueError` when the number of folds `n_splits + 1` exceeds `n_samples`
or when `n_samples - test_size * n_splits <= 0`; otherwise it yields
`n_splits` pairs `(indices[:test_start], indices[test_start:test_start +
test_size])` with `test_size = n_samples // (n_splits + 1)` and
`test_start = n_samples - (n_splits - i) * test_size` for fold `i`. -/
def timeSeriesSplit (n_samples n_splits : ℕ) :
    Except CVError (List (List ℕ × List ℕ)) :=
  if n_splits ≤ 1 then .error CVError.invalidFoldCount
  else
    let n_folds := n_splits + 1
    let test_size := n_samples / n_folds
    if n_samples < n_folds then .error CVError.invalidFoldCount
    else if n_samples ≤ test_size * n_splits then .error CVError.invalidFoldCount
    else
      .ok ((List.range n_splits).map (fun i =>
        let test_start := n_samples - n_splits * test_size + i * test_size
        (List.range test_start, (List.range test_size).map (fun j => j + test_start))))

/-- The body of the `for fold, (train, test) in enumerate(cv.split(...))`
loop of `calc_cross_validation`: per fold, fit on the training indices,
append `y[test]` to `ground_truth` and the fold predictions to
`prediction`.  A classifier exception aborts the loop and propagates;
the accumulated local lists are discarded. -/
def cvLoop : Predictor σ → List (List ℚ) → List (List ℚ) →
    List (List ℕ × List ℕ) →
    Predictor σ × Except CVError (List (List ℚ) × List (List ℚ))
  | p, gt, pred, [] => (p, .ok (gt, pred))
  | p, gt, pred, (train, test) :: rest =>
      match fit_covariate_model p (some train) with
      | (p1, some e) => (p1, .error e)
      | (p1, none) =>
          match get_covariate_probability p1 (some test) with
          | .error e => (p1, .error e)
          | .ok pr => cvLoop p1 (gt ++ [selectIdx p1.y test]) (pred ++ [pr]) rest

/-- `Predictor.calc_cross_validation`: builds the splitter, runs the
fold loop, and only after the whole loop succeeds stores the 2-tuple
`(ground_truth, prediction)` in `self._cross_val_res`.  On any exception
the cache field is left as it was. -/
def calc_cross_validation (p : Predictor σ) : Predictor σ × Option CVError :=
  match timeSeriesSplit p.X.length p.cv_splits with
  | .error e => (p, some e)
  | .ok splits =>
      match cvLoop p [] [] splits with
      | (p1, .error e) => (p1, some e)
      | (p1, .ok (gt, pred)) =>
          ({ p1 with cross_val_res := some [gt, pred] }, none)

/-- The guard `if self._cross_val_res is None: self.calc_cross_validation()`
shared by `get_cross_val_metric` and `plot_cross_validation_roc` (the
spec's `run()`). -/
def ensure_cross_validation (p : Predictor σ) : Predictor σ × Option CVError :=
  if p.cross_val_res.isNone then calc_cross_validation p else (p, none)

/-- `Predictor.get_cross_val_metric`: ensures the cache, unpacks the cached
tuple as `ground_truth, prediction` (arity 2), and applies `metric` to the
fold pairs for `i in range(self._cv_splits)`. -/
def get_cross_val_metric (p : Predictor σ) (metric : List ℚ → List ℚ → α) :
    Predictor σ × Except CVError (List α) :=
  match ensure_cross_validation p with
  | (p1, some e) => (p1, .error e)
  | (p1, none) =>
      match p1.cross_val_res with
      | some (gt :: pred :: []) =>
          (p1, .ok ((List.range p1.cv_splits).map
            (fun i => metric (gt.getD i []) (pred.getD i []))))
      | _ => (p1, .error CVError.unpackError)

/-- One per-fold ROC curve as produced by
`sklearn.metrics.RocCurveDisplay.from_predictions`: the `viz.fpr` and
`viz.tpr` arrays and the scalar `viz.roc_auc`. -/
structure RocCurve where
  fpr : List ℚ
  tpr : List ℚ
  roc_auc : ℚ
deriving DecidableEq

/-- `np.linspace(0, 1, 100)`: the common false-positive-rate grid. -/
def mean_fpr_grid : List ℚ :=
  (List.range 100).map (fun (i : ℕ) => (i : ℚ) / 99)

/-- `np.interp(x, xp, fp)` for one query point `x`: `fp[0]` left of the
first sample point, `fp[-1]` right of the last, and piecewise-linear
interpolation in between (`xp` sorted, as numpy requires). -/
def npInterp (x : ℚ) : List ℚ → List ℚ → ℚ
  | x0 :: x1 :: xs, f0 :: f1 :: fs =>
      if x ≤ x0 then f0
      else if x ≤ x1 then f0 + (f1 - f0) * (x - x0) / (x1 - x0)
      else npInterp x (x1 :: xs) (f1 :: fs)
  | _ :: [], f0 :: [] => f0
  | _, _ => 0

/-- The per-fold interpolation step of `plot_cross_validation_roc`:
`interp_tpr = np.interp(mean_fpr, viz.fpr, viz.tpr)` followed by the
per-fold pin `interp_tpr[0] = 0.0`. -/
def interpCurve (c : RocCurve) : List ℚ :=
  (mean_fpr_grid.map (fun x => npInterp x c.fpr c.tpr)).set 0 0

/-- `np.mean(ls, axis=0)` for a list of equal-length rows. -/
def meanAxis0 (ls : List (List ℚ)) : List ℚ :=
  (List.range (ls.headD []).length).map
    (fun i => (ls.map (fun l => l.getD i 0)).sum / (ls.length : ℚ))

/-- The (rational) population variance underlying `np.std`:
mean of the squared deviations from the mean. -/
def npVar (l : List ℚ) : ℚ :=
  (l.map (fun x => (x - l.sum / l.length) ^ 2)).sum / l.length

/-- `np.std(l)`: square root of the population variance. -/
noncomputable def npStd (l : List ℚ) : ℝ :=
  Real.sqrt (npVar l : ℚ)

/-- `np.std(ls, axis=0)` for a list of equal-length rows. -/
noncomputable def stdAxis0 (ls : List (List ℚ)) : List ℝ :=
  (List.range (ls.headD []).length).map
    (fun i => npStd (ls.map (fun l => l.getD i 0)))

/-- `np.diff(x)`: consecutive differences. -/
def npDiff : List ℚ → List ℚ
  | x0 :: x1 :: xs => (x1 - x0) :: npDiff (x1 :: xs)
  | _ => []

/-- `np.trapz(y, x)`: composite trapezoidal rule. -/
def npTrapz : List ℚ → List ℚ → ℚ
  | y0 :: y1 :: ys, x0 :: x1 :: xs =>
      (x1 - x0) * (y0 + y1) / 2 + npTrapz (y1 :: ys) (x1 :: xs)
  | _, _ => 0

/-- `sklearn.metrics.auc(x, y)`: checks that `x` is monotone (raising
`ValueError` otherwise), chooses the direction sign, and integrates with
the trapezoidal rule. -/
def sklearnAuc (x y : List ℚ) : Except CVError ℚ :=
  if (npDiff x).any (fun d => d < 0) then
    if (npDiff x).all (fun d => d ≤ 0) then .ok (-(npTrapz y x))
    else .error CVError.nonMonotonic
  else .ok (npTrapz y x)

/-- The aggregation result of `plot_cross_validation_roc`: everything
computed from the per-fold curves (grid, the interpolated-and-pinned
per-fold tprs, per-fold AUCs, the pinned mean curve, the AUC summary, and
the standard-deviation band). -/
structure RocAgg where
  mean_fpr : List ℚ
  tprs : List (List ℚ)
  aucs : List ℚ
  mean_tpr : List ℚ
  mean_auc : ℚ
  std_auc : ℝ
  std_tpr : List ℝ
  tprs_upper : List ℝ
  tprs_lower : List ℝ

/-- The aggregation pipeline of `plot_cross_validation_roc`, lines 92-117
of `predictor.py`, as a function of the per-fold ROC curves: per-fold
interpolation with `interp_tpr[0] = 0.0`, elementwise mean with
`mean_tpr[-1] = 1.0`, `mean_auc = sklearn.metrics.auc(mean_fpr, mean_tpr)`
(which can raise on a non-monotone grid), `std_auc = np.std(aucs)`,
`std_tpr = np.std(tprs, axis=0)`, and the band
`np.minimum(mean_tpr + std_tpr, 1)` / `np.maximum(mean_tpr - std_tpr, 0)`. -/
noncomputable def rocAggregate (curves : List RocCurve) :
    Except CVError RocAgg :=
  let tprs := curves.map interpCurve
  let aucs := curves.map RocCurve.roc_auc
  let m0 := meanAxis0 tprs
  let mean_tpr := m0.set (m0.length - 1) 1
  (sklearnAuc mean_fpr_grid mean_tpr).map (fun mean_auc =>
    { mean_fpr := mean_fpr_grid
      tprs := tprs
      aucs := aucs
      mean_tpr := mean_tpr
      mean_auc := mean_auc
      std_auc := npStd aucs
      std_tpr := stdAxis0 tprs
      tprs_upper := List.zipWith (fun (m : ℚ) (s : ℝ) => min ((m : ℝ) + s) 1) mean_tpr (stdAxis0 tprs)
      tprs_lower := List.zipWith (fun (m : ℚ) (s : ℝ) => max ((m : ℝ) - s) 0) mean_tpr (stdAxis0 tprs) })

/-- The value `rocAggregate` returns when `sklearn.metrics.auc` does not
raise (which is always the case on the fixed increasing grid): the same
pipeline with `mean_auc` spelled as the trapezoidal rule directly. -/
noncomputable def aggRocFn (curves : List RocCurve) : RocAgg :=
  let tprs := curves.map interpCurve
  let m0 := meanAxis0 tprs
  let mean_tpr := m0.set (m0.length - 1) 1
  { mean_fpr := mean_fpr_grid
    tprs := tprs
    aucs := curves.map RocCurve.roc_auc
    mean_tpr := mean_tpr
    mean_auc := npTrapz mean_tpr mean_fpr_grid
    std_auc := npStd (curves.map RocCurve.roc_auc)
    std_tpr := stdAxis0 tprs
    tprs_upper := List.zipWith (fun (m : ℚ) (s : ℝ) => min ((m : ℝ) + s) 1) mean_tpr (stdAxis0 tprs)
    tprs_lower := List.zipWith (fun (m : ℚ) (s : ℝ) => max ((m : ℝ) - s) 0) mean_tpr (stdAxis0 tprs) }

/-- The body of `plot_cross_validation_roc` after the cache guard: the
tuple unpack `ground_truth, pred_probability, pred = self._cross_val_res`
(arity 3, raising `ValueError` on any other arity), then for each fold the
ROC curve of `(ground_truth[fold], pred_probability[fold])` and the
aggregation pipeline.  `rocFn` abstracts
`sklearn.metrics.RocCurveDisplay.from_predictions`. -/
noncomputable def plotBody (rocFn : List ℚ → List ℚ → RocCurve)
    (p1 : Predictor σ) : Except CVError RocAgg :=
  match p1.cross_val_res with
  | some (gt :: pp :: _pred :: []) =>
      rocAggregate ((List.range p1.cv_splits).map
        (fun fold => rocFn (gt.getD fold []) (pp.getD fold [])))
  | _ => .error CVError.unpackError

/-- `Predictor.plot_cross_validation_roc` up to (and excluding) rendering:
ensures the cache, then runs `plotBody`. -/
noncomputable def plot_cross_validation_roc
    (rocFn : List ℚ → List ℚ → RocCurve) (p : Predictor σ) :
    Predictor σ × Except CVError RocAgg :=
  match ensure_cross_validation p with
  | (p1, some e) => (p1, .error e)
  | (p1, none) => (p1, plotBody rocFn p1)

/-- Trapezoidal area under the polyline `(x, y)`, written as the spec
describes it: the sum over consecutive grid points of the trapezoid areas. -/
def trapezoidArea (x y : List ℚ) : ℚ :=
  ∑ i ∈ Finset.range (x.length - 1),
    (x.getD (i + 1) 0 - x.getD i 0) * (y.getD i 0 + y.getD (i + 1) 0) / 2

/-- Standard deviation of a list of rationals, written as the spec
describes it, directly over the reals. -/
noncomputable def listStdDev (l : List ℚ) : ℝ :=
  Real.sqrt ((l.map (fun (v : ℚ) =>
      ((v : ℝ) - (l.map (fun (q : ℚ) => (q : ℝ))).sum / (l.length : ℝ)) ^ 2)).sum
    / (l.length : ℝ))

/-- A tiny data object for concrete runs: three ordered samples, boolean
labels. -/
def dataA : DataObj :=
  { get_training_covariates := [[1], [2], [3]]
    predictand := [0, 1, 0]
    predictand_isBool := true
    prepare_covariates := fun df => df }

/-- A constant classifier: `fit` keeps the state, `predict_proba` assigns
probability 1/2 to each class on every row. -/
def modelConst : CovModel Unit :=
  { fit := fun st _ _ => .ok st
    predict_proba := fun _ X => .ok (X.map (fun _ => (1/2, 1/2)))
    predict := fun _ X => .ok (X.map (fun r => r.headD 0)) }

/-- A concrete predictor with two folds over `dataA` and the constant
classifier. -/
def P0 : Predictor Unit := mkPredictor dataA modelConst () 2

/-- A classifier whose `fit` succeeds once and raises on every later
invocation (its state counts the fits): fold 1's fit fails. -/
def modelFailSecond : CovModel ℕ :=
  { fit := fun st _ _ => if 1 ≤ st then .error CVError.classifierFitError else .ok (st + 1)
    predict_proba := fun _ X => .ok (X.map (fun _ => (1/2, 1/2)))
    predict := fun _ X => .ok (X.map (fun r => r.headD 0)) }

/-- A concrete predictor whose cross-validation fails at fold 1. -/
def P4 : Predictor ℕ := mkPredictor dataA modelFailSecond 0 2

/-- A concrete predictor constructed with fold count 1. -/
def P8 : Predictor Unit := mkPredictor dataA modelConst () 1

/-- A regression-mode data object whose `prepare_covariates` is the
identity. -/
def dataB1 : DataObj :=
  { get_training_covariates := [[1], [2], [3]]
    predictand := [0, 1, 0]
    predictand_isBool := false
    prepare_covariates := fun df => df }

/-- A data object identical to `dataB1` except that `prepare_covariates`
now prepares no rows at all: the state of `dataB1` after a mutation. -/
def dataB2 : DataObj :=
  { dataB1 with prepare_covariates := fun _ => [] }

/-- A concrete regression-mode predictor over `dataB1`. -/
def P10 : Predictor Unit := mkPredictor dataB1 modelConst () 2

/-- Replacing the predictor's data reference: models a mutation of the
`Data` object after construction. -/
def setData (p : Predictor σ) (d : DataObj) : Predictor σ :=
  { p with data := d }

/-- A concrete, well-formed per-fold ROC curve: the diagonal. -/
def c0 : RocCurve := { fpr := [0, 1], tpr := [0, 1], roc_auc := 1/2 }

/-- Fitting the covariate model never touches the cross-validation
cache field. -/
theorem fit_covariate_model_cache (p : Predictor σ) (o : Option (List ℕ)) :
    (fit_covariate_model p o).1.cross_val_res = p.cross_val_res := by
  unfold fit_covariate_model
  cases o <;> dsimp only <;> split <;> rfl

/-- The fold loop never touches the cross-validation cache field of the
threaded predictor. -/
theorem cvLoop_cache (splits : List (List ℕ × List ℕ)) :
    ∀ (p : Predictor σ) (gt pred : List (List ℚ)),
      (cvLoop p gt pred splits).1.cross_val_res = p.cross_val_res := by
  induction splits with
  | nil => intro p gt pred; rfl
  | cons s rest ih =>
      intro p gt pred
      obtain ⟨train, test⟩ := s
      rcases hf : fit_covariate_model p (some train) with ⟨p1, e⟩
      have hc : p1.cross_val_res = p.cross_val_res := by
        have h0 := fit_covariate_model_cache p (some train)
        rw [hf] at h0; exact h0
      cases e with
      | some e0 => simp [cvLoop, hf, hc]
      | none =>
          cases hg : get_covariate_probability p1 (some test) with
          | error e0 => simp [cvLoop, hf, hg, hc]
          | ok pr => simp [cvLoop, hf, hg, ih, hc]

/-- When `calc_cross_validation` succeeds, the new cache holds the stored
2-tuple `(ground_truth, prediction)`. -/
theorem calc_ok_shape (p : Predictor σ)
    (h : (calc_cross_validation p).2 = none) :
    ∃ gt pred, (calc_cross_validation p).1.cross_val_res = some [gt, pred] := by
  unfold calc_cross_validation at h ⊢
  cases hs : timeSeriesSplit p.X.length p.cv_splits with
  | error e => rw [hs] at h; simp at h
  | ok splits =>
      rw [hs] at h
      dsimp only at h ⊢
      rcases hl : cvLoop p [] [] splits with ⟨p1, r⟩
      rw [hl] at h
      cases r with
      | error e => exact Option.noConfusion h
      | ok gp =>
          obtain ⟨gt, pred⟩ := gp
          exact ⟨gt, pred, rfl⟩

/-- When the cache is already populated, the cache guard is a no-op. -/
theorem ensure_of_isSome (p : Predictor σ) (h : p.cross_val_res.isSome) :
    ensure_cross_validation p = (p, none) := by
  obtain ⟨v, hv⟩ := Option.isSome_iff_exists.mp h
  unfold ensure_cross_validation
  rw [hv]
  rfl

/-- Claim C2 counterexample: for N = 100 samples and K = 5 folds the
temporal splitter does not produce test blocks of size 20 (they have
size 16 = 100 div 6). -/
theorem c2_split_sizes_counterexample :
    (timeSeriesSplit 100 5).map (fun s => s.all (fun f => f.2.length = 20)) ≠
      .ok true := by
  decide

/-- Claim C2 (amended): for N = 100 ordered samples and K = 5 folds the
temporal splitter produces exactly 5 splits whose test blocks each have
size 16 = 100 div (5 + 1), with training-set sizes 20, 36, 52, 68, 84 for
the successive folds. -/
theorem c2_split_sizes_amended :
    (timeSeriesSplit 100 5).map (fun s => s.map (fun f => (f.1.length, f.2.length))) =
      .ok [(20, 16), (36, 16), (52, 16), (68, 16), (84, 16)] := by
  decide

/-- Claim C8: whenever the fold count is below 2, or N is too small to
yield K non-empty test blocks (N < K + 1, the test block size being
N div (K+1)), running the cross-validation fails with the invalid fold
count error and leaves the predictor untouched. -/
theorem c8_invalid_fold_count (p : Predictor σ)
    (h : p.cv_splits < 2 ∨ p.X.length < p.cv_splits + 1) :
    (calc_cross_validation p).2 = some CVError.invalidFoldCount ∧
      (calc_cross_validation p).1 = p := by
  have hs : timeSeriesSplit p.X.length p.cv_splits = .error CVError.invalidFoldCount := by
    unfold timeSeriesSplit
    rcases h with h | h
    · rw [if_pos (by omega)]
    · by_cases h1 : p.cv_splits ≤ 1
      · rw [if_pos h1]
      · rw [if_neg h1]
        simp only []
        rw [if_pos (by omega)]
  unfold calc_cross_validation
  rw [hs]
  exact ⟨rfl, rfl⟩

/-- Witness for claim C8 at the concrete predictor `P8` built with fold
count 1. -/
theorem c8_invalid_fold_count_witness :
    (P8.cv_splits < 2 ∨ P8.X.length < P8.cv_splits + 1) ∧
      (calc_cross_validation P8).2 = some CVError.invalidFoldCount ∧
        (calc_cross_validation P8).1 = P8 :=
  ⟨by decide, c8_invalid_fold_count P8 (by decide)⟩

/-- Claim C4 counterexample: on the concrete predictor `P4`, fold 1's fit
raises, the run aborts, and the cache afterwards is still empty — it does
not contain fold 0's result `([y[1]], [prediction on fold 0])` (nor
anything else), contradicting "the cache afterwards contains exactly the
FoldResults of folds 0 through i-1". -/
theorem c4_failed_fold_cache_counterexample :
    (calc_cross_validation P4).2 = some CVError.classifierFitError ∧
      (calc_cross_validation P4).1.cross_val_res = none ∧
        (calc_cross_validation P4).1.cross_val_res ≠
          some [[[1]], [[(1 : ℚ)/2]]] := by
  refine ⟨by decide, by decide, by decide⟩

/-- Claim C4 (amended): when any fold's fit or predict raises, the
cross-validation run aborts and the cache afterwards is exactly what it
was before the call — in particular, no partial per-fold results are
stored. -/
theorem c4_failed_fold_cache_amended (p : Predictor σ)
    (h : (calc_cross_validation p).2.isSome) :
    (calc_cross_validation p).1.cross_val_res = p.cross_val_res := by
  unfold calc_cross_validation at h ⊢
  cases hs : timeSeriesSplit p.X.length p.cv_splits with
  | error e => rfl
  | ok splits =>
      rw [hs] at h
      dsimp only at h ⊢
      rcases hl : cvLoop p [] [] splits with ⟨p1, r⟩
      have hc : p1.cross_val_res = p.cross_val_res := by
        have h0 := cvLoop_cache splits p [] []
        rw [hl] at h0; exact h0
      rw [hl] at h
      cases r with
      | error e => exact hc
      | ok gp =>
          obtain ⟨gt, pred⟩ := gp
          exact Bool.noConfusion h

/-- Witness for the amended claim C4 at the concrete predictor `P4`,
whose fold 1 fit raises. -/
theorem c4_failed_fold_cache_amended_witness :
    ((calc_cross_validation P4).2.isSome = true) ∧
      (calc_cross_validation P4).1.cross_val_res = P4.cross_val_res :=
  ⟨by decide, c4_failed_fold_cache_amended P4 (by decide)⟩

/-- Fitting only reads the construction-time snapshots and the
classifier, so replacing the data reference commutes with it. -/
theorem fit_covariate_model_setData (p : Predictor σ) (d : DataObj)
    (o : Option (List ℕ)) :
    fit_covariate_model (setData p d) o =
      (setData (fit_covariate_model p o).1 d, (fit_covariate_model p o).2) := by
  cases o with
  | none =>
      cases hf : p.cov_model.fit p.cov_state p.X p.y with
      | ok st => simp [fit_covariate_model, setData, hf]
      | error e => simp [fit_covariate_model, setData, hf]
  | some idxs =>
      cases hf : p.cov_model.fit p.cov_state (selectRows p.X idxs) (selectIdx p.y idxs) with
      | ok st => simp [fit_covariate_model, setData, hf]
      | error e => simp [fit_covariate_model, setData, hf]

/-- In-sample prediction ignores the data reference. -/
theorem get_covariate_probability_setData (p : Predictor σ) (d : DataObj)
    (idxs : Option (List ℕ)) :
    get_covariate_probability (setData p d) idxs =
      get_covariate_probability p idxs := rfl

/-- Projection facts for `setData`: only the data reference changes. -/
theorem setData_y (p : Predictor σ) (d : DataObj) : (setData p d).y = p.y := rfl

/-- The fold loop commutes with replacing the data reference. -/
theorem cvLoop_setData (d : DataObj) (splits : List (List ℕ × List ℕ)) :
    ∀ (p : Predictor σ) (gt pred : List (List ℚ)),
      cvLoop (setData p d) gt pred splits =
        (setData (cvLoop p gt pred splits).1 d, (cvLoop p gt pred splits).2) := by
  induction splits with
  | nil => intro p gt pred; rfl
  | cons s rest ih =>
      intro p gt pred
      obtain ⟨train, test⟩ := s
      rcases hf : fit_covariate_model p (some train) with ⟨p1, e⟩
      have hf2 : fit_covariate_model (setData p d) (some train) = (setData p1 d, e) := by
        rw [fit_covariate_model_setData, hf]
      cases e with
      | some e0 => simp [cvLoop, hf, hf2]
      | none =>
          have hg : get_covariate_probability (setData p1 d) (some test) =
              get_covariate_probability p1 (some test) := rfl
          cases hgc : get_covariate_probability p1 (some test) with
          | error e0 => simp [cvLoop, hf, hf2, hg, hgc]
          | ok pr => simp [cvLoop, hf, hf2, hg, hgc, ih, setData_y]

/-- The cross-validation run commutes with replacing the data
reference: the data object is never consulted during it. -/
theorem calc_cross_validation_setData (p : Predictor σ) (d : DataObj) :
    calc_cross_validation (setData p d) =
      (setData (calc_cross_validation p).1 d, (calc_cross_validation p).2) := by
  unfold calc_cross_validation
  have hX : (setData p d).X = p.X := rfl
  have hk : (setData p d).cv_splits = p.cv_splits := rfl
  rw [hX, hk]
  cases hs : timeSeriesSplit p.X.length p.cv_splits with
  | error e => rfl
  | ok splits =>
      dsimp only
      rw [cvLoop_setData]
      rcases hl : cvLoop p [] [] splits with ⟨p1, r⟩
      cases r with
      | error e => rfl
      | ok gp =>
          obtain ⟨gt, pred⟩ := gp
          simp [setData]

/-- Claim C10 counterexample: `dataB2` differs from the
construction-time `dataB1` only in `prepare_covariates`; after the data
object changes, the out-of-sample prediction of the very same predictor
changes too, so a change to the Data object after construction does
affect a result. -/
theorem c10_snapshot_counterexample :
    predict_covariate_probability (setData P10 dataB2) [[5]] ≠
      predict_covariate_probability P10 [[5]] := by
  decide

/-- Claim C10 (amended): the feature matrix, the label vector, and the
classification-mode flag are snapshotted at construction, and fit,
in-sample prediction, residuals, and the cross-validation run never
consult the data object again — replacing the data reference commutes
with each of them and leaves their results unchanged.  (Out-of-sample
prediction via `predict_covariate_probability` is the exception: it calls
the live data object's `prepare_covariates`, see the counterexample.) -/
theorem c10_snapshot_amended (p : Predictor σ) (d : DataObj)
    (idxs : Option (List ℕ)) :
    fit_covariate_model (setData p d) idxs =
        (setData (fit_covariate_model p idxs).1 d, (fit_covariate_model p idxs).2) ∧
      get_covariate_probability (setData p d) idxs = get_covariate_probability p idxs ∧
      get_residuals (setData p d) idxs = get_residuals p idxs ∧
      calc_cross_validation (setData p d) =
        (setData (calc_cross_validation p).1 d, (calc_cross_validation p).2) ∧
      (calc_cross_validation (setData p d)).1.cross_val_res =
        (calc_cross_validation p).1.cross_val_res :=
  ⟨fit_covariate_model_setData p d idxs, rfl, rfl,
    calc_cross_validation_setData p d,
    by rw [calc_cross_validation_setData]; rfl⟩

/-- Claim C3: once the first guarded run has succeeded, a second guarded
run is the identity — it returns the very same predictor state (hence the
bit-identical cached per-fold results) with no error, and the classifier
fit counter does not change (the classifier is not refit). -/
theorem c3_run_idempotent (p : Predictor σ)
    (h : (ensure_cross_validation p).2 = none) :
    ensure_cross_validation (ensure_cross_validation p).1 =
        ((ensure_cross_validation p).1, none) ∧
      (ensure_cross_validation (ensure_cross_validation p).1).1.cross_val_res =
        (ensure_cross_validation p).1.cross_val_res ∧
      (ensure_cross_validation (ensure_cross_validation p).1).1.fit_count =
        (ensure_cross_validation p).1.fit_count := by
  have hidem : ensure_cross_validation (ensure_cross_validation p).1 =
      ((ensure_cross_validation p).1, none) := by
    by_cases hc : p.cross_val_res.isNone
    · have he : ensure_cross_validation p = calc_cross_validation p := by
        unfold ensure_cross_validation; rw [if_pos hc]
      have h2 : (calc_cross_validation p).2 = none := by rw [← he]; exact h
      obtain ⟨gt, pred, hshape⟩ := calc_ok_shape p h2
      apply ensure_of_isSome
      rw [he, hshape]; rfl
    · have he : ensure_cross_validation p = (p, none) := by
        unfold ensure_cross_validation; rw [if_neg hc]
      rw [he]
      exact he
  exact ⟨hidem, by rw [hidem], by rw [hidem]⟩

/-- Witness for claim C3 at the concrete predictor `P0`, whose first
guarded run succeeds. -/
theorem c3_run_idempotent_witness :
    ((ensure_cross_validation P0).2 = none) ∧
      ensure_cross_validation (ensure_cross_validation P0).1 =
        ((ensure_cross_validation P0).1, none) :=
  ⟨by decide, (c3_run_idempotent P0 (by decide)).1⟩

/-- A concrete stand-in for
`sklearn.metrics.RocCurveDisplay.from_predictions`. -/
def rocFnDefault : List ℚ → List ℚ → RocCurve := fun _ _ => c0

/-- Claim C1 (code bug): for every predictor whose cache is absent and
whose fold loop succeeds, `plot_cross_validation_roc` does populate the
cache first, but then raises the tuple-unpack `ValueError`: the cache
holds the 2-tuple stored by `calc_cross_validation` while the method
unpacks it into three variables, so no fold's ROC curve is ever
computed. -/
theorem c1_aggregate_roc_unpack_bug (rocFn : List ℚ → List ℚ → RocCurve)
    (p : Predictor σ) (h0 : p.cross_val_res = none)
    (h1 : (calc_cross_validation p).2 = none) :
    (plot_cross_validation_roc rocFn p).1.cross_val_res.isSome ∧
      (plot_cross_validation_roc rocFn p).2 = .error CVError.unpackError := by
  have he : ensure_cross_validation p = calc_cross_validation p := by
    unfold ensure_cross_validation
    rw [h0]; rfl
  obtain ⟨gt, pred, hshape⟩ := calc_ok_shape p h1
  rcases hcp : calc_cross_validation p with ⟨p1, e⟩
  rw [hcp] at h1 hshape
  have he2 : e = none := h1
  subst he2
  have hs2 : p1.cross_val_res = some [gt, pred] := hshape
  unfold plot_cross_validation_roc
  rw [he, hcp]
  dsimp only
  constructor
  · rw [hs2]; rfl
  · unfold plotBody
    rw [hs2]

/-- Witness for claim C1 at the concrete predictor `P0` with an empty
cache and a succeeding fold loop. -/
theorem c1_aggregate_roc_unpack_bug_witness :
    (P0.cross_val_res = none ∧ (calc_cross_validation P0).2 = none) ∧
      ((plot_cross_validation_roc rocFnDefault P0).1.cross_val_res.isSome ∧
        (plot_cross_validation_roc rocFnDefault P0).2 = .error CVError.unpackError) :=
  ⟨⟨rfl, by decide⟩, c1_aggregate_roc_unpack_bug rocFnDefault P0 rfl (by decide)⟩

/-- Reading inside the bounds agrees with `getElem`. -/
theorem getD_of_lt (l : List α) (d : α) (i : ℕ) (h : i < l.length) :
    l.getD i d = l[i] := by
  simp [List.getD_eq_getElem?_getD, List.getElem?_eq_getElem h]

/-- Interpolated values stay inside `[0, 1]` whenever all sample values
do: every output of `np.interp` is a sample value or a convex combination
of two consecutive sample values. -/
theorem npInterp_bounds (x : ℚ) : ∀ (xp fp : List ℚ),
    (∀ f ∈ fp, 0 ≤ f ∧ f ≤ 1) →
      0 ≤ npInterp x xp fp ∧ npInterp x xp fp ≤ 1 := by
  intro xp
  induction xp with
  | nil => intro fp _; simp [npInterp]
  | cons x0 xs ih =>
      intro fp hfp
      cases xs with
      | nil =>
          cases fp with
          | nil => simp [npInterp]
          | cons f0 fs =>
              cases fs with
              | nil => simpa [npInterp] using hfp f0 (by simp)
              | cons f1 fs2 => simp [npInterp]
      | cons x1 xs2 =>
          cases fp with
          | nil => simp [npInterp]
          | cons f0 fs =>
              cases fs with
              | nil => simp [npInterp]
              | cons f1 fs2 =>
                  have hf0 := hfp f0 (by simp)
                  have hf1 := hfp f1 (by simp)
                  by_cases h0 : x ≤ x0
                  · simpa [npInterp, h0] using hf0
                  · by_cases h1 : x ≤ x1
                    · have hx0 : x0 < x := lt_of_not_le h0
                      have hd : 0 < x1 - x0 := by linarith
                      have ht0 : 0 ≤ (x - x0) / (x1 - x0) :=
                        div_nonneg (by linarith) hd.le
                      have ht1 : (x - x0) / (x1 - x0) ≤ 1 :=
                        (div_le_one hd).mpr (by linarith)
                      have hkey : f0 + (f1 - f0) * (x - x0) / (x1 - x0) =
                          f0 + (f1 - f0) * ((x - x0) / (x1 - x0)) := by
                        rw [mul_div_assoc]
                      simp only [npInterp, h0, h1, if_false, if_true]
                      rw [hkey]
                      constructor
                      · nlinarith [mul_nonneg hf0.1 (sub_nonneg.mpr ht1),
                          mul_nonneg hf1.1 ht0]
                      · nlinarith [mul_nonneg (sub_nonneg.mpr hf0.2) (sub_nonneg.mpr ht1),
                          mul_nonneg (sub_nonneg.mpr hf1.2) ht0]
                    · have hrec := ih (f1 :: fs2)
                        (fun f hf => hfp f (List.mem_cons_of_mem f0 hf))
                      simpa [npInterp, h0, h1] using hrec

/-- A list of values bounded by 1 sums to at most its length. -/
theorem sum_le_length (l : List ℚ) (h : ∀ v ∈ l, v ≤ 1) :
    l.sum ≤ (l.length : ℚ) := by
  induction l with
  | nil => simp
  | cons v vs ih =>
      simp only [List.sum_cons, List.length_cons]
      have h1 := h v (by simp)
      have h2 := ih (fun w hw => h w (by simp [hw]))
      push_cast
      linarith

/-- Entries of `np.mean(ls, axis=0)` stay inside `[0, 1]` whenever all
entries of all rows do. -/
theorem meanAxis0_bounds (ls : List (List ℚ))
    (h : ∀ l ∈ ls, ∀ v ∈ l, 0 ≤ v ∧ v ≤ 1) :
    ∀ v ∈ meanAxis0 ls, 0 ≤ v ∧ v ≤ 1 := by
  intro v hv
  unfold meanAxis0 at hv
  rw [List.mem_map] at hv
  obtain ⟨i, _, hvi⟩ := hv
  subst hvi
  have hb : ∀ w ∈ ls.map (fun l => l.getD i 0), 0 ≤ w ∧ w ≤ 1 := by
    intro w hw
    rw [List.mem_map] at hw
    obtain ⟨l, hl, hw⟩ := hw
    subst hw
    by_cases hlen : i < l.length
    · rw [getD_of_lt l 0 i hlen]
      exact h l hl _ (List.getElem_mem hlen)
    · rw [List.getD_eq_getElem?_getD, List.getElem?_eq_none (by omega)]
      norm_num
  cases ls with
  | nil => simp
  | cons l0 rest =>
      have hlen : (0 : ℚ) < ((l0 :: rest).length : ℚ) := by
        exact_mod_cast Nat.succ_pos rest.length
      constructor
      · exact div_nonneg
          (List.sum_nonneg (fun w hw => (hb w hw).1)) hlen.le
      · rw [div_le_one hlen]
        have := sum_le_length ((l0 :: rest).map (fun l => l.getD i 0))
          (fun w hw => (hb w hw).2)
        simpa using this

/-- The interpolated per-fold curve always has the full grid length. -/
theorem interpCurve_length (c : RocCurve) : (interpCurve c).length = 100 := by
  unfold interpCurve mean_fpr_grid
  rw [List.length_set, List.length_map, List.length_map, List.length_range]

/-- The per-fold pin: the interpolated curve starts with the forced 0. -/
theorem interpCurve_head (c : RocCurve) : (interpCurve c).getD 0 0 = 0 := by
  have h : (0 : ℕ) < (mean_fpr_grid.map (fun x => npInterp x c.fpr c.tpr)).length := by
    rw [List.length_map]
    unfold mean_fpr_grid
    rw [List.length_map, List.length_range]
    norm_num
  unfold interpCurve
  rw [getD_of_lt _ _ _ (by rw [List.length_set]; exact h)]
  exact List.getElem_set_self (by rw [List.length_set]; exact h)

/-- Entries of the interpolated per-fold curve stay inside `[0, 1]`
whenever the fold's raw tpr values do. -/
theorem interpCurve_bounds (c : RocCurve)
    (h : ∀ t ∈ c.tpr, 0 ≤ t ∧ t ≤ 1) :
    ∀ v ∈ interpCurve c, 0 ≤ v ∧ v ≤ 1 := by
  intro v hv
  unfold interpCurve at hv
  rcases List.mem_or_eq_of_mem_set hv with hv2 | hv2
  · rw [List.mem_map] at hv2
    obtain ⟨xq, _, hvq⟩ := hv2
    subst hvq
    exact npInterp_bounds xq c.fpr c.tpr h
  · subst hv2
    norm_num

/-- The common fpr grid is non-decreasing. -/
theorem mean_fpr_grid_chain :
    List.Chain' (fun a b : ℚ => a ≤ b) mean_fpr_grid := by
  unfold mean_fpr_grid
  rw [List.chain'_map]
  rw [List.chain'_iff_get]
  intro i h
  simp only [List.get_eq_getElem, List.getElem_range]
  have hle : ((i : ℚ)) ≤ ((i + 1 : ℕ) : ℚ) := by exact_mod_cast Nat.le_succ i
  exact div_le_div_of_nonneg_right hle (by norm_num)

/-- Differences of a non-decreasing list are non-negative. -/
theorem npDiff_nonneg : ∀ (l : List ℚ),
    List.Chain' (fun a b : ℚ => a ≤ b) l → ∀ d ∈ npDiff l, 0 ≤ d := by
  intro l
  induction l with
  | nil => intro _ d hd; simp [npDiff] at hd
  | cons x0 xs ih =>
      cases xs with
      | nil => intro _ d hd; simp [npDiff] at hd
      | cons x1 xs2 =>
          intro hch d hd
          simp only [npDiff, List.mem_cons] at hd
          rcases hd with hd | hd
          · subst hd
            have h01 := (List.chain'_cons.mp hch).1
            linarith
          · exact ih (List.chain'_cons.mp hch).2 d hd

/-- On the fixed increasing grid, `sklearn.metrics.auc` never raises and
equals `np.trapz`. -/
theorem sklearnAuc_grid (y : List ℚ) :
    sklearnAuc mean_fpr_grid y = .ok (npTrapz y mean_fpr_grid) := by
  have hno : ((npDiff mean_fpr_grid).any (fun d => d < 0)) = false := by
    rw [List.any_eq_false]
    intro d hd
    simpa using not_lt.mpr (npDiff_nonneg mean_fpr_grid mean_fpr_grid_chain d hd)
  unfold sklearnAuc
  rw [hno]
  simp

/-- `rocAggregate` never raises: it always returns the aggregation value
`aggRocFn`. -/
theorem rocAggregate_eq (curves : List RocCurve) :
    rocAggregate curves = .ok (aggRocFn curves) := by
  unfold rocAggregate aggRocFn
  dsimp only
  rw [sklearnAuc_grid]
  rfl

/-- Length of the elementwise mean: the common row length. -/
theorem meanAxis0_length (ls : List (List ℚ)) :
    (meanAxis0 ls).length = (ls.headD []).length := by
  unfold meanAxis0
  rw [List.length_map, List.length_range]

/-- Reading the entry of `np.mean(ls, axis=0)` at an in-range index. -/
theorem meanAxis0_getD (ls : List (List ℚ)) (i : ℕ)
    (hi : i < (ls.headD []).length) :
    (meanAxis0 ls).getD i 0 =
      (ls.map (fun l => l.getD i 0)).sum / (ls.length : ℚ) := by
  unfold meanAxis0
  rw [getD_of_lt _ _ _ (by rw [List.length_map, List.length_range]; exact hi)]
  rw [List.getElem_map, List.getElem_range]

/-- Overwriting the last entry of a 100-entry list leaves entry 0
unchanged. -/
theorem set_last_getD_front (l : List ℚ) (hlen : l.length = 100) :
    (l.set (l.length - 1) 1).getD 0 0 = l.getD 0 0 := by
  rw [getD_of_lt _ _ _ (by rw [List.length_set]; omega)]
  rw [List.getElem_set_ne (by omega)]
  exact (getD_of_lt l 0 0 (by omega)).symm

/-- Overwriting the last entry of a 100-entry list puts the new value at
index 99. -/
theorem set_last_getD_back (l : List ℚ) (hlen : l.length = 100) :
    (l.set (l.length - 1) 1).getD 99 0 = 1 := by
  rw [getD_of_lt _ _ _ (by rw [List.length_set]; omega)]
  have h99 : l.length - 1 = 99 := by omega
  rw [h99]
  exact List.getElem_set_self (by rw [List.length_set]; omega)

/-- Claim C5: for every non-empty family of per-fold ROC curves, the
aggregation pins each fold's interpolated tpr to 0 at the first grid
point before averaging, the mean curve starts at exactly 0, and (after
the post-average overwrite) ends at exactly 1 at the last of the 100
grid points. -/
theorem c5_roc_pinning (curves : List RocCurve) (h : curves ≠ []) :
    ∀ agg, rocAggregate curves = .ok agg →
      (∀ t ∈ agg.tprs, t.getD 0 0 = 0) ∧
        agg.mean_tpr.length = 100 ∧
        agg.mean_tpr.getD 0 0 = 0 ∧
        agg.mean_tpr.getD 99 0 = 1 := by
  intro agg hagg
  rw [rocAggregate_eq] at hagg
  obtain rfl : aggRocFn curves = agg := Except.ok.inj hagg
  obtain ⟨ch, ct⟩ := List.exists_cons_of_ne_nil h
  obtain ⟨cs, rfl⟩ := ct
  have htprs : (aggRocFn (ch :: cs)).tprs = (ch :: cs).map interpCurve := rfl
  have hm0len : (meanAxis0 ((ch :: cs).map interpCurve)).length = 100 := by
    rw [meanAxis0_length]
    simp only [List.map_cons, List.headD_cons]
    exact interpCurve_length ch
  have hlen : (aggRocFn (ch :: cs)).mean_tpr.length = 100 := by
    show ((meanAxis0 ((ch :: cs).map interpCurve)).set _ 1).length = 100
    rw [List.length_set]
    exact hm0len
  refine ⟨?_, hlen, ?_, ?_⟩
  · intro t ht
    rw [htprs, List.mem_map] at ht
    obtain ⟨c, _, rfl⟩ := ht
    exact interpCurve_head c
  · show ((meanAxis0 ((ch :: cs).map interpCurve)).set
      ((meanAxis0 ((ch :: cs).map interpCurve)).length - 1) 1).getD 0 0 = 0
    rw [set_last_getD_front _ hm0len]
    rw [meanAxis0_getD _ 0 (by
      simp only [List.map_cons, List.headD_cons, interpCurve_length]
      norm_num)]
    have hz : ∀ w ∈ ((ch :: cs).map interpCurve).map (fun l => l.getD 0 0), w = 0 := by
      intro w hw
      rw [List.mem_map] at hw
      obtain ⟨l, hl, rfl⟩ := hw
      rw [List.mem_map] at hl
      obtain ⟨c, _, rfl⟩ := hl
      exact interpCurve_head c
    rw [List.sum_eq_zero hz, zero_div]
  · show ((meanAxis0 ((ch :: cs).map interpCurve)).set
      ((meanAxis0 ((ch :: cs).map interpCurve)).length - 1) 1).getD 99 0 = 1
    exact set_last_getD_back _ hm0len

/-- Witness for claim C5 at the singleton family containing the diagonal
curve `c0`. -/
theorem c5_roc_pinning_witness :
    ([c0] ≠ []) ∧
      ((∀ t ∈ (aggRocFn [c0]).tprs, t.getD 0 0 = 0) ∧
        (aggRocFn [c0]).mean_tpr.length = 100 ∧
        (aggRocFn [c0]).mean_tpr.getD 0 0 = 0 ∧
        (aggRocFn [c0]).mean_tpr.getD 99 0 = 1) :=
  ⟨by simp, c5_roc_pinning [c0] (by simp) (aggRocFn [c0]) (rocAggregate_eq [c0])⟩

/-- Entries of `np.std(ls, axis=0)` are non-negative. -/
theorem stdAxis0_nonneg (ls : List (List ℚ)) :
    ∀ s ∈ stdAxis0 ls, 0 ≤ s := by
  intro s hs
  unfold stdAxis0 at hs
  rw [List.mem_map] at hs
  obtain ⟨i, _, rfl⟩ := hs
  exact Real.sqrt_nonneg _

/-- Length of `np.std(ls, axis=0)`: the common row length. -/
theorem stdAxis0_length (ls : List (List ℚ)) :
    (stdAxis0 ls).length = (ls.headD []).length := by
  unfold stdAxis0
  rw [List.length_map, List.length_range]

/-- The band inequality chain at one index, for any mean curve with
entries in `[0, 1]` and any non-negative deviation list: the clipped
band brackets the mean inside `[0, 1]`. -/
theorem band_chain (M : List ℚ) (S : List ℝ)
    (hMb : ∀ v ∈ M, 0 ≤ v ∧ v ≤ 1) (hSnn : ∀ s ∈ S, 0 ≤ s)
    (i : ℕ) (hiM : i < M.length) (hiS : i < S.length) :
    0 ≤ (List.zipWith (fun (m : ℚ) (s : ℝ) => max ((m : ℝ) - s) 0) M S).getD i 0 ∧
      (List.zipWith (fun (m : ℚ) (s : ℝ) => max ((m : ℝ) - s) 0) M S).getD i 0 ≤
        (M.getD i 0 : ℝ) ∧
      (M.getD i 0 : ℝ) ≤
        (List.zipWith (fun (m : ℚ) (s : ℝ) => min ((m : ℝ) + s) 1) M S).getD i 0 ∧
      (List.zipWith (fun (m : ℚ) (s : ℝ) => min ((m : ℝ) + s) 1) M S).getD i 0 ≤ 1 := by
  have hm := hMb (M.getD i 0) (by rw [getD_of_lt _ _ _ hiM]; exact List.getElem_mem hiM)
  have hs := hSnn (S.getD i 0) (by rw [getD_of_lt _ _ _ hiS]; exact List.getElem_mem hiS)
  have hlow : (List.zipWith (fun (m : ℚ) (s : ℝ) => max ((m : ℝ) - s) 0) M S).getD i 0 =
      max ((M.getD i 0 : ℝ) - S.getD i 0) 0 := by
    rw [getD_of_lt _ _ _ (by rw [List.length_zipWith]; omega)]
    rw [List.getElem_zipWith]
    rw [getD_of_lt _ _ _ hiM, getD_of_lt _ _ _ hiS]
  have hup : (List.zipWith (fun (m : ℚ) (s : ℝ) => min ((m : ℝ) + s) 1) M S).getD i 0 =
      min ((M.getD i 0 : ℝ) + S.getD i 0) 1 := by
    rw [getD_of_lt _ _ _ (by rw [List.length_zipWith]; omega)]
    rw [List.getElem_zipWith]
    rw [getD_of_lt _ _ _ hiM, getD_of_lt _ _ _ hiS]
  rw [hlow, hup]
  have hm0 : (0 : ℝ) ≤ (M.getD i 0 : ℚ) := by exact_mod_cast hm.1
  have hm1 : ((M.getD i 0 : ℚ) : ℝ) ≤ 1 := by exact_mod_cast hm.2
  exact ⟨le_max_right _ _,
    max_le (by linarith) hm0,
    le_min (by linarith) hm1,
    min_le_right _ _⟩

/-- Claim C6: for every non-empty family of per-fold ROC curves whose
tpr values lie in `[0, 1]`, the variability band of the aggregation has
the full 100-point grid length and satisfies, at every grid index,
`0 <= tprs_lower[i] <= mean_tpr[i] <= tprs_upper[i] <= 1`. -/
theorem c6_band_validity (curves : List RocCurve) (h : curves ≠ [])
    (hb : ∀ c ∈ curves, ∀ t ∈ c.tpr, 0 ≤ t ∧ t ≤ 1) :
    ∀ agg, rocAggregate curves = .ok agg →
      agg.tprs_lower.length = 100 ∧ agg.tprs_upper.length = 100 ∧
        ∀ i, i < 100 →
          0 ≤ agg.tprs_lower.getD i 0 ∧
            agg.tprs_lower.getD i 0 ≤ (agg.mean_tpr.getD i 0 : ℝ) ∧
            (agg.mean_tpr.getD i 0 : ℝ) ≤ agg.tprs_upper.getD i 0 ∧
            agg.tprs_upper.getD i 0 ≤ 1 := by
  intro agg hagg
  rw [rocAggregate_eq] at hagg
  obtain rfl : aggRocFn curves = agg := Except.ok.inj hagg
  obtain ⟨ch, ct⟩ := List.exists_cons_of_ne_nil h
  obtain ⟨cs, rfl⟩ := ct
  have hm0len : (meanAxis0 ((ch :: cs).map interpCurve)).length = 100 := by
    rw [meanAxis0_length]
    simp only [List.map_cons, List.headD_cons]
    exact interpCurve_length ch
  have hMlen : ((meanAxis0 ((ch :: cs).map interpCurve)).set
      ((meanAxis0 ((ch :: cs).map interpCurve)).length - 1) 1).length = 100 := by
    rw [List.length_set]
    exact hm0len
  have hSlen : (stdAxis0 ((ch :: cs).map interpCurve)).length = 100 := by
    rw [stdAxis0_length]
    simp only [List.map_cons, List.headD_cons]
    exact interpCurve_length ch
  have hMb : ∀ v ∈ (meanAxis0 ((ch :: cs).map interpCurve)).set
      ((meanAxis0 ((ch :: cs).map interpCurve)).length - 1) 1, 0 ≤ v ∧ v ≤ 1 := by
    intro v hv
    rcases List.mem_or_eq_of_mem_set hv with hv2 | hv2
    · refine meanAxis0_bounds ((ch :: cs).map interpCurve) ?_ v hv2
      intro l hl
      rw [List.mem_map] at hl
      obtain ⟨c, hc, rfl⟩ := hl
      exact interpCurve_bounds c (hb c hc)
    · subst hv2
      norm_num
  refine ⟨?_, ?_, ?_⟩
  · show (List.zipWith _ _ _).length = 100
    rw [List.length_zipWith, hMlen, hSlen]
    exact Nat.min_self 100
  · show (List.zipWith _ _ _).length = 100
    rw [List.length_zipWith, hMlen, hSlen]
    exact Nat.min_self 100
  · intro i hi
    have hbc := band_chain
      ((meanAxis0 ((ch :: cs).map interpCurve)).set
        ((meanAxis0 ((ch :: cs).map interpCurve)).length - 1) 1)
      (stdAxis0 ((ch :: cs).map interpCurve))
      hMb (stdAxis0_nonneg _) i (by rw [hMlen]; exact hi) (by rw [hSlen]; exact hi)
    exact hbc

/-- Witness for claim C6 at the singleton family containing the diagonal
curve `c0`, instantiated at grid index 0. -/
theorem c6_band_validity_witness :
    ([c0] ≠ [] ∧ (∀ c ∈ [c0], ∀ t ∈ c.tpr, 0 ≤ t ∧ t ≤ 1)) ∧
      (0 ≤ (aggRocFn [c0]).tprs_lower.getD 0 0 ∧
        (aggRocFn [c0]).tprs_lower.getD 0 0 ≤ ((aggRocFn [c0]).mean_tpr.getD 0 0 : ℝ) ∧
        ((aggRocFn [c0]).mean_tpr.getD 0 0 : ℝ) ≤ (aggRocFn [c0]).tprs_upper.getD 0 0 ∧
        (aggRocFn [c0]).tprs_upper.getD 0 0 ≤ 1) :=
  ⟨⟨by simp, by
      intro c hc t ht
      simp only [List.mem_singleton] at hc
      subst hc
      simp only [c0, List.mem_cons, List.not_mem_nil, or_false] at ht
      rcases ht with rfl | rfl
      · exact ⟨le_refl 0, zero_le_one⟩
      · exact ⟨zero_le_one, le_refl 1⟩⟩,
    (c6_band_validity [c0] (by simp)
      (by
        intro c hc t ht
        simp only [List.mem_singleton] at hc
        subst hc
        simp only [c0, List.mem_cons, List.not_mem_nil, or_false] at ht
        rcases ht with rfl | rfl
        · exact ⟨le_refl 0, zero_le_one⟩
        · exact ⟨zero_le_one, le_refl 1⟩)
      (aggRocFn [c0]) (rocAggregate_eq [c0])).2.2 0 (by norm_num)⟩

/-- The grid has exactly 100 points. -/
theorem mean_fpr_grid_length : mean_fpr_grid.length = 100 := by
  unfold mean_fpr_grid
  rw [List.length_map, List.length_range]

/-- `np.trapz` agrees with the indexed trapezoidal sum on equal-length
inputs. -/
theorem npTrapz_eq_trapezoidArea : ∀ (y x : List ℚ), y.length = x.length →
    npTrapz y x = trapezoidArea x y := by
  intro y
  induction y with
  | nil =>
      intro x h
      obtain rfl : x = [] := List.length_eq_zero.mp h.symm
      simp [npTrapz, trapezoidArea]
  | cons y0 ys ih =>
      intro x h
      cases x with
      | nil => simp at h
      | cons x0 xs =>
          cases ys with
          | nil =>
              obtain rfl : xs = [] := by
                simp only [List.length_cons, List.length_nil] at h
                exact List.length_eq_zero.mp (by omega)
              simp [npTrapz, trapezoidArea]
          | cons y1 ys2 =>
              cases xs with
              | nil => simp at h
              | cons x1 xs2 =>
                  have hlen : (y1 :: ys2).length = (x1 :: xs2).length := by
                    simp only [List.length_cons] at h ⊢
                    omega
                  have hrec := ih (x1 :: xs2) hlen
                  show (x1 - x0) * (y0 + y1) / 2 + npTrapz (y1 :: ys2) (x1 :: xs2) =
                    trapezoidArea (x0 :: x1 :: xs2) (y0 :: y1 :: ys2)
                  rw [hrec]
                  unfold trapezoidArea
                  simp only [List.length_cons]
                  rw [show (xs2.length + 1 + 1 - 1) = xs2.length + 1 from rfl]
                  rw [Finset.sum_range_succ']
                  simp only [List.getD_cons_succ, List.getD_cons_zero]
                  rw [show (xs2.length + 1 - 1) = xs2.length from rfl]
                  ring

/-- `np.std` (square root of the rational population variance) agrees
with the standard deviation written directly over the reals. -/
theorem npStd_eq_listStdDev (l : List ℚ) : npStd l = listStdDev l := by
  unfold npStd listStdDev npVar
  congr 1
  push_cast [List.map_map]
  congr 1
  refine congrArg List.sum (List.map_congr_left ?_)
  intro v hv
  simp only [Function.comp_apply]
  push_cast
  rfl

/-- Claim C7: for every non-empty family of per-fold ROC curves, the
aggregation's `mean_auc` is exactly the trapezoidal area under the grid
and the pinned mean curve (the pinning happens before the area is
computed), and `std_auc` is exactly the standard deviation of the
per-fold AUCs — not a quantity recomputed from the pinned mean curve. -/
theorem c7_auc_summary (curves : List RocCurve) (h : curves ≠ []) :
    ∀ agg, rocAggregate curves = .ok agg →
      agg.mean_auc = trapezoidArea agg.mean_fpr agg.mean_tpr ∧
        agg.std_auc = listStdDev (curves.map RocCurve.roc_auc) := by
  intro agg hagg
  rw [rocAggregate_eq] at hagg
  obtain rfl : aggRocFn curves = agg := Except.ok.inj hagg
  obtain ⟨ch, ct⟩ := List.exists_cons_of_ne_nil h
  obtain ⟨cs, rfl⟩ := ct
  constructor
  · have hm0len : (meanAxis0 ((ch :: cs).map interpCurve)).length = 100 := by
      rw [meanAxis0_length]
      simp only [List.map_cons, List.headD_cons]
      exact interpCurve_length ch
    show npTrapz ((meanAxis0 ((ch :: cs).map interpCurve)).set
        ((meanAxis0 ((ch :: cs).map interpCurve)).length - 1) 1) mean_fpr_grid =
      trapezoidArea mean_fpr_grid ((meanAxis0 ((ch :: cs).map interpCurve)).set
        ((meanAxis0 ((ch :: cs).map interpCurve)).length - 1) 1)
    apply npTrapz_eq_trapezoidArea
    rw [List.length_set, hm0len, mean_fpr_grid_length]
  · exact npStd_eq_listStdDev _

/-- Witness for claim C7 at the singleton family containing the diagonal
curve `c0`. -/
theorem c7_auc_summary_witness :
    ([c0] ≠ []) ∧
      ((aggRocFn [c0]).mean_auc =
          trapezoidArea (aggRocFn [c0]).mean_fpr (aggRocFn [c0]).mean_tpr ∧
        (aggRocFn [c0]).std_auc = listStdDev ([c0].map RocCurve.roc_auc)) :=
  ⟨by simp, c7_auc_summary [c0] (by simp) (aggRocFn [c0]) (rocAggregate_eq [c0])⟩

/-- Claim C9: the prediction mode is fixed at construction by the label
dtype.  When `predictand.dtype == bool`, every prediction operation
(in-sample or per-fold via `get_covariate_probability` on any index set,
and on prepared new rows via `predict_covariate_probability`) returns
column 1 of `predict_proba` — the probability assigned to the positive
class — and these values lie in `[0, 1]` whenever the classifier emits
genuine probabilities; otherwise every prediction operation returns the
classifier's raw `predict` values. -/
theorem c9_prediction_mode (data : DataObj) (covariate_model : CovModel σ)
    (st : σ) (k : ℕ) (idxs : Option (List ℕ)) (df : List (List ℚ)) :
    (data.predictand_isBool = true →
      get_covariate_probability (mkPredictor data covariate_model st k) idxs =
          (covariate_model.predict_proba st
            (sliceRows data.get_training_covariates idxs)).map
            (fun rows => rows.map Prod.snd) ∧
        predict_covariate_probability (mkPredictor data covariate_model st k) df =
          (covariate_model.predict_proba st (data.prepare_covariates df)).map
            (fun rows => rows.map Prod.snd) ∧
        ((∀ s X r, covariate_model.predict_proba s X = .ok r →
            ∀ q ∈ r, 0 ≤ q.2 ∧ q.2 ≤ 1) →
          (∀ res, get_covariate_probability (mkPredictor data covariate_model st k) idxs =
              .ok res → ∀ v ∈ res, 0 ≤ v ∧ v ≤ 1) ∧
          (∀ res, predict_covariate_probability (mkPredictor data covariate_model st k) df =
              .ok res → ∀ v ∈ res, 0 ≤ v ∧ v ≤ 1))) ∧
    (data.predictand_isBool = false →
      get_covariate_probability (mkPredictor data covariate_model st k) idxs =
          covariate_model.predict st (sliceRows data.get_training_covariates idxs) ∧
        predict_covariate_probability (mkPredictor data covariate_model st k) df =
          covariate_model.predict st (data.prepare_covariates df)) := by
  constructor
  · intro hbool
    have hget : get_covariate_probability (mkPredictor data covariate_model st k) idxs =
        (covariate_model.predict_proba st
          (sliceRows data.get_training_covariates idxs)).map
          (fun rows => rows.map Prod.snd) := by
      simp only [get_covariate_probability, mkPredictor, hbool, if_true]
    have hpred : predict_covariate_probability (mkPredictor data covariate_model st k) df =
        (covariate_model.predict_proba st (data.prepare_covariates df)).map
          (fun rows => rows.map Prod.snd) := by
      simp only [predict_covariate_probability, mkPredictor, hbool, if_true]
    refine ⟨hget, hpred, ?_⟩
    intro hvalid
    constructor
    · intro res hres
      rw [hget] at hres
      cases hpp : covariate_model.predict_proba st
          (sliceRows data.get_training_covariates idxs) with
      | error e => rw [hpp] at hres; exact absurd hres (by simp [Except.map])
      | ok rows =>
          rw [hpp] at hres
          simp only [Except.map] at hres
          obtain rfl : rows.map Prod.snd = res := Except.ok.inj hres
          intro v hv
          rw [List.mem_map] at hv
          obtain ⟨q, hq, rfl⟩ := hv
          exact hvalid st _ rows hpp q hq
    · intro res hres
      rw [hpred] at hres
      cases hpp : covariate_model.predict_proba st (data.prepare_covariates df) with
      | error e => rw [hpp] at hres; exact absurd hres (by simp [Except.map])
      | ok rows =>
          rw [hpp] at hres
          simp only [Except.map] at hres
          obtain rfl : rows.map Prod.snd = res := Except.ok.inj hres
          intro v hv
          rw [List.mem_map] at hv
          obtain ⟨q, hq, rfl⟩ := hv
          exact hvalid st _ rows hpp q hq
  · intro hbool
    constructor
    · simp [get_covariate_probability, mkPredictor, hbool]
    · simp [predict_covariate_probability, mkPredictor, hbool]

/-- Witness for claim C9 in classification mode at the concrete data
object `dataA` (boolean labels) and the constant classifier. -/
theorem c9_prediction_mode_witness :
    (dataA.predictand_isBool = true) ∧
      get_covariate_probability (mkPredictor dataA modelConst () 2) none =
        (modelConst.predict_proba ()
          (sliceRows dataA.get_training_covariates none)).map
          (fun rows => rows.map Prod.snd) :=
  ⟨rfl, ((c9_prediction_mode dataA modelConst () 2 none []).1 rfl).1⟩

end Minkowski
